import Mathlib

set_option autoImplicit false

/-!
Shallow embedding of `src/finally.c`, a Lua module providing a `finally`
function for deterministic resource cleanup.  We model the Lua 5.2/5.3
code path: the re-entrant preallocation coroutine `preallocatek`, the
calibration allocator `alloc_fail`, and the orchestrator `lfinally`.

Lua values are opaque to the library, so we model them as naturals.
Each invocation of `lfinally` is modelled as a pure function from the
semantic behaviour of the main and cleanup functions to a result record
holding the outcome (returned values or raised error), the trace of
observable events (stack reservations, driver recursion, main run,
allocator install/restore, cleanup call) and the allocator installed in
the main Lua state when the invocation finishes.
-/

namespace LuaFinally

/-- Lua values are opaque to the library; we model them as naturals. -/
abbrev Value := Nat

/-- The allocator installed in the main Lua state: either the original
allocator present when `lfinally` starts, or the failing `alloc_fail`
override installed for calibration. -/
inductive AllocKind where
  | original
  | failing
deriving DecidableEq, Repr

/-- Outcome of running the main function under `lua_pcall`
(finally.c line 262): either a sequence of return values or a raised
error value. -/
inductive MainOutcome where
  | ok (results : List Value)
  | err (e : Value)
deriving DecidableEq, Repr

/-- Behaviour of the cleanup function when called inside the coroutine:
it returns normally, raises an error value, or attempts to yield. -/
inductive CleanupOutcome where
  | ok
  | err (e : Value)
  | suspended
deriving DecidableEq, Repr

/-- Observable events of one `lfinally` invocation.
`checkstack count slots` records a `luaL_checkstack` slot reservation
performed in the driver frame whose `calls` argument is `count`;
`driverCall count` records a recursive `lua_callk` of `preallocatek`
with first integer argument `count`; `driverYield` records the
`lua_yield` at the bottom of the recursion; `mainRun a` records the
`lua_pcall` of the main function with allocator `a` installed;
`installFailAlloc` records the `lua_setallocf` call installing
`alloc_fail` at finally.c line 133; `callCleanup arg` records the `lua_call` of the
cleanup function with argument list `arg`; `restoreAlloc` records the
restoring `lua_setallocf` at finally.c line 272. -/
inductive Ev where
  | checkstack (count : Int) (slots : Int)
  | driverCall (count : Int)
  | driverYield
  | mainRun (alloc : AllocKind)
  | installFailAlloc
  | callCleanup (arg : Option Value)
  | restoreAlloc
deriving DecidableEq, Repr

/-- Errors raised by `lfinally`:
`invalidArgument n` models the `luaL_argcheck` failure on argument `n`;
`cleanupSuspended` models raising the distinguished upvalue message
pushed by `luaopen_finally` (finally.c lines 273-277 and 294);
`raised e` models `lua_error` on a user error value `e` coming from the
main or the cleanup function. -/
inductive Err where
  | invalidArgument (argn : Nat)
  | cleanupSuspended
  | raised (e : Value)
deriving DecidableEq, Repr

/-- Result of one `lfinally` invocation: returned values or raised
error. -/
inductive Outcome where
  | ok (results : List Value)
  | raise (e : Err)
deriving DecidableEq, Repr

/-- Full observable result of one `lfinally` invocation. -/
structure FinallyResult where
  outcome : Outcome
  trace : List Ev
  finalAlloc : AllocKind
deriving DecidableEq, Repr

/-! ### The calibration allocator `alloc_fail` (finally.c lines 97-108) -/

/-- An allocation request as received by a `lua_Alloc` function:
`ptr = none` models a NULL pointer, `osize`/`nsize` are the old and the
requested block sizes. -/
structure AllocReq where
  ptr : Option Nat
  osize : Nat
  nsize : Nat
deriving DecidableEq, Repr

/-- Model of `alloc_fail` (finally.c lines 97-108): simulate out of memory.  When
`nsize > 0` and the request is a fresh allocation (`ptr == NULL`) or
grows the block (`osize < nsize`), return NULL without consulting the
saved allocator; otherwise forward the request to the saved allocator
`as->alloc` and return its result. -/
def alloc_fail (wrapped : AllocReq → Option Nat) (r : AllocReq) : Option Nat :=
  if 0 < r.nsize ∧ (r.ptr = none ∨ r.osize < r.nsize) then
    none
  else
    wrapped r

/-- Growth classification in the words of the specification: a *growth*
request is a new allocation (NULL pointer with positive requested size)
or a resize where the requested size exceeds the current size; anything
else (a free, or a resize to an equal or smaller size) is *non-growth*. -/
def isGrowth (r : AllocReq) : Bool :=
  (r.ptr.isNone && decide (0 < r.nsize)) || (r.ptr.isSome && decide (r.osize < r.nsize))

/-! ### The preallocation driver `preallocatek` (finally.c lines 115-145) -/

/-- First phase of `preallocatek` (the `ctx = 0` arm, finally.c lines
119-138), run until the coroutine yields.  The frame reads `calls` from
stack index 2 and `stack` from index 3 with `lua_tointeger` (absent
arguments read as 0).  If `stack` is non-zero it reserves that many
stack slots with `luaL_checkstack`.  If `calls > 0` it pushes the driver
function and `calls - 1` and re-invokes itself with `lua_callk` — the
recursive frame receives only two arguments, so its `stack` reads as 0.
When `calls` reaches 0 (or is non-positive) the frame yields. -/
def preallocPhase1 (calls stack : Int) : List Ev :=
  (if stack ≠ 0 then [Ev.checkstack calls stack] else []) ++
  (if h : 0 < calls then
    Ev.driverCall (calls - 1) :: preallocPhase1 (calls - 1) 0
  else
    [Ev.driverYield])
termination_by calls.toNat
decreasing_by omega

/-- The failure indicator forwarded to the coroutine on the second
resume (finally.c lines 266-270): the main function's error value when
`lua_pcall` failed, and nothing on success. -/
def mainFailure : MainOutcome → Option Value
  | .ok _ => none
  | .err e => some e

/-- Second phase of `preallocatek` (the `ctx = 1` arm, finally.c lines
129-136), run in the outermost driver frame when the second resume
propagates back up: since stack index 5 holds the cleanup function, it
installs `alloc_fail` when an `alloc_state` was passed at index 4
(calibration mode) and then `lua_call`s the cleanup function with the
forwarded failure indicator.  Returns the emitted events and the
allocator installed afterwards. -/
def preallocResume (hasAllocState : Bool) (arg : Option Value) (a : AllocKind) :
    List Ev × AllocKind :=
  if hasAllocState then
    ([Ev.installFailAlloc, Ev.callCleanup arg], AllocKind.failing)
  else
    ([Ev.callCleanup arg], a)

/-! ### The orchestrator `lfinally` (finally.c lines 207-286) -/

/-- Status handling after the second resume (finally.c lines 270-285):
a yield status raises the distinguished upvalue message; an error status
re-raises the cleanup function's error; otherwise a pending main error
is re-raised, or the main function's results are returned. -/
def mergeOutcome (main : MainOutcome) (co : CleanupOutcome) : Outcome :=
  match co with
  | .suspended => .raise .cleanupSuspended
  | .err ce => .raise (.raised ce)
  | .ok =>
    match main with
    | .err e => .raise (.raised e)
    | .ok rs => .ok rs

/-- Body of `lfinally` after argument validation (finally.c lines
221-286) with already-validated stack slot budget `ms`, call frame
budget `mc` and calibration flag `debug`.  It saves the current (hence
original) allocator when `debug` is set (line 246), resumes the fresh
coroutine running `preallocatek` with `mc + 1` frames (lines 225, 243
and 255), runs the main function under `lua_pcall` with the original
allocator still installed (line 262), resumes the coroutine with the
failure indicator so that the cleanup function runs (line 270), restores
the saved allocator when `debug` is set (line 272), and merges statuses
(lines 273-285). -/
def runValidated (ms mc : Int) (debug : Bool) (m : MainOutcome)
    (c : Option Value → CleanupOutcome) : FinallyResult :=
  let saved := AllocKind.original
  let resume := preallocResume debug (mainFailure m) AllocKind.original
  { outcome := mergeOutcome m (c (mainFailure m))
    trace := preallocPhase1 (mc + 1) ms
             ++ [Ev.mainRun AllocKind.original]
             ++ resume.1
             ++ (if debug then [Ev.restoreAlloc] else [])
    finalAlloc := if debug then saved else resume.2 }

/-- Model of `lfinally` (finally.c lines 207-286).  The stack slot budget
defaults to 100 and the call frame budget to 10 (`luaL_optinteger`,
lines 214 and 217); the calibration flag is read with `lua_toboolean`,
so an absent fifth argument reads as `false` (line 220).  A
non-positive slot budget fails the `luaL_argcheck` on argument 3, and a
non-positive frame budget the one on argument 4, before the coroutine
is created and before either function runs. -/
def lfinally (minstack0 mincalls0 : Option Int) (calibrate0 : Option Bool)
    (m : MainOutcome) (c : Option Value → CleanupOutcome) : FinallyResult :=
  let minstack := minstack0.getD 100
  if minstack ≤ 0 then
    { outcome := .raise (.invalidArgument 3), trace := [], finalAlloc := .original }
  else
    let mincalls := mincalls0.getD 10
    if mincalls ≤ 0 then
      { outcome := .raise (.invalidArgument 4), trace := [], finalAlloc := .original }
    else
      runValidated minstack mincalls (calibrate0.getD false) m c

/-! ### Trace observations -/

/-- The argument lists of the cleanup calls recorded in a trace. -/
def cleanupArgs (t : List Ev) : List (Option Value) :=
  t.filterMap fun e =>
    match e with
    | .callCleanup a => some a
    | _ => none

/-- The `calls` arguments of the recursive driver invocations recorded
in a trace. -/
def driverCallCounts (t : List Ev) : List Int :=
  t.filterMap fun e =>
    match e with
    | .driverCall k => some k
    | _ => none

/-- The `(count, slots)` pairs of the stack reservations recorded in a
trace. -/
def checkstackEvents (t : List Ev) : List (Int × Int) :=
  t.filterMap fun e =>
    match e with
    | .checkstack k s => some (k, s)
    | _ => none

/-- Whether a trace records a stack reservation in a driver frame whose
`calls` argument is `c`. -/
def reservesAtCount (c : Int) (t : List Ev) : Bool :=
  t.any fun e =>
    match e with
    | .checkstack k _ => k == c
    | _ => false

/-- The list `countdown n = [n-1, n-2, …, 0]` of integers. -/
def countdown : Nat → List Int
  | 0 => []
  | n + 1 => (n : Int) :: countdown n

/-- The number of `installFailAlloc` events in a trace. -/
def installCount (t : List Ev) : Nat :=
  (t.filter fun e =>
    match e with
    | .installFailAlloc => true
    | _ => false).length

/-- The number of `driverYield` events in a trace. -/
def yieldCount (t : List Ev) : Nat :=
  (t.filter fun e =>
    match e with
    | .driverYield => true
    | _ => false).length

/-! ### Basic trace algebra -/

@[simp]
lemma cleanupArgs_nil : cleanupArgs [] = [] := rfl

@[simp]
lemma cleanupArgs_cons (e : Ev) (t : List Ev) :
    cleanupArgs (e :: t) =
      (match e with | .callCleanup a => [a] | _ => []) ++ cleanupArgs t := by
  cases e <;> rfl

@[simp]
lemma cleanupArgs_append (s t : List Ev) :
    cleanupArgs (s ++ t) = cleanupArgs s ++ cleanupArgs t :=
  List.filterMap_append s t _

@[simp]
lemma driverCallCounts_nil : driverCallCounts [] = [] := rfl

@[simp]
lemma driverCallCounts_cons (e : Ev) (t : List Ev) :
    driverCallCounts (e :: t) =
      (match e with | .driverCall k => [k] | _ => []) ++ driverCallCounts t := by
  cases e <;> rfl

@[simp]
lemma driverCallCounts_append (s t : List Ev) :
    driverCallCounts (s ++ t) = driverCallCounts s ++ driverCallCounts t :=
  List.filterMap_append s t _

@[simp]
lemma checkstackEvents_nil : checkstackEvents [] = [] := rfl

@[simp]
lemma checkstackEvents_cons (e : Ev) (t : List Ev) :
    checkstackEvents (e :: t) =
      (match e with | .checkstack k s => [(k, s)] | _ => []) ++ checkstackEvents t := by
  cases e <;> rfl

@[simp]
lemma checkstackEvents_append (s t : List Ev) :
    checkstackEvents (s ++ t) = checkstackEvents s ++ checkstackEvents t :=
  List.filterMap_append s t _

@[simp]
lemma installCount_nil : installCount [] = 0 := rfl

@[simp]
lemma installCount_cons (e : Ev) (t : List Ev) :
    installCount (e :: t) =
      installCount t + (match e with | .installFailAlloc => 1 | _ => 0) := by
  cases e <;> rfl

@[simp]
lemma installCount_append (s t : List Ev) :
    installCount (s ++ t) = installCount s + installCount t := by
  unfold installCount
  rw [List.filter_append, List.length_append]

@[simp]
lemma yieldCount_nil : yieldCount [] = 0 := rfl

@[simp]
lemma yieldCount_cons (e : Ev) (t : List Ev) :
    yieldCount (e :: t) =
      yieldCount t + (match e with | .driverYield => 1 | _ => 0) := by
  cases e <;> rfl

@[simp]
lemma yieldCount_append (s t : List Ev) :
    yieldCount (s ++ t) = yieldCount s + yieldCount t := by
  unfold yieldCount
  rw [List.filter_append, List.length_append]

@[simp]
lemma countdown_length (n : Nat) : (countdown n).length = n := by
  induction n with
  | zero => rfl
  | succ k ih => simp [countdown, ih]

/-! ### Characterisation of the preallocation driver -/

/-- The events emitted by a driver frame entered with count `n` and no
third argument (hence `stack` reads as 0): the recursive descent
`driverCall (n-1), …, driverCall 0` followed by the single yield. -/
def driverTail : Nat → List Ev
  | 0 => [Ev.driverYield]
  | n + 1 => Ev.driverCall (n : Int) :: driverTail n

lemma preallocPhase1_zero_stack_aux :
    ∀ (n : Nat) (calls : Int), calls.toNat = n →
      preallocPhase1 calls 0 = driverTail n := by
  intro n
  induction n with
  | zero =>
      intro calls hn
      rw [preallocPhase1, if_neg (by simp), dif_neg (by omega)]
      rfl
  | succ k ih =>
      intro calls hn
      rw [preallocPhase1, if_neg (by simp), dif_pos (by omega : (0:Int) < calls)]
      rw [ih (calls - 1) (by omega)]
      rw [show calls - 1 = (k : Int) by omega]
      rfl

lemma preallocPhase1_zero_stack (calls : Int) :
    preallocPhase1 calls 0 = driverTail calls.toNat :=
  preallocPhase1_zero_stack_aux calls.toNat calls rfl

/-- Unfolding of the driver for a positive count and a non-zero slot
budget: one stack reservation in the outermost frame, then the
recursive descent and the yield. -/
lemma preallocPhase1_top (calls stack : Int) (hc : 0 < calls) (hs : stack ≠ 0) :
    preallocPhase1 calls stack =
      Ev.checkstack calls stack :: Ev.driverCall (calls - 1) ::
        driverTail (calls - 1).toNat := by
  rw [preallocPhase1, if_pos hs, dif_pos hc, preallocPhase1_zero_stack]
  rfl

@[simp]
lemma cleanupArgs_driverTail (n : Nat) : cleanupArgs (driverTail n) = [] := by
  induction n with
  | zero => rfl
  | succ k ih => simp [driverTail, ih]

@[simp]
lemma driverCallCounts_driverTail (n : Nat) :
    driverCallCounts (driverTail n) = countdown n := by
  induction n with
  | zero => rfl
  | succ k ih => simp [driverTail, countdown, ih]

@[simp]
lemma checkstackEvents_driverTail (n : Nat) :
    checkstackEvents (driverTail n) = [] := by
  induction n with
  | zero => rfl
  | succ k ih => simp [driverTail, ih]

@[simp]
lemma installCount_driverTail (n : Nat) : installCount (driverTail n) = 0 := by
  induction n with
  | zero => rfl
  | succ k ih => simp [driverTail, ih]

@[simp]
lemma yieldCount_driverTail (n : Nat) : yieldCount (driverTail n) = 1 := by
  induction n with
  | zero => rfl
  | succ k ih => simp [driverTail, ih]

/-- Argument validation succeeds exactly on positive effective budgets,
and then `lfinally` runs the validated body. -/
lemma lfinally_valid (ms0 mc0 : Option Int) (cal0 : Option Bool)
    (m : MainOutcome) (c : Option Value → CleanupOutcome)
    (h1 : 0 < ms0.getD 100) (h2 : 0 < mc0.getD 10) :
    lfinally ms0 mc0 cal0 m c =
      runValidated (ms0.getD 100) (mc0.getD 10) (cal0.getD false) m c := by
  simp only [lfinally]
  rw [if_neg (by omega), if_neg (by omega)]

/-! ### The claims -/

/-- C4: every allocation request received by `alloc_fail` that is a
growth request (new allocation, i.e. NULL pointer with positive
requested size, or a resize where the requested size exceeds the
current size) is rejected by returning NULL without consulting the
wrapped allocator (the result is `none` whatever `w` is), and every
non-growth request (free, or resize to an equal or smaller size) is
forwarded unmodified to the wrapped allocator `w` and its result
returned. -/
theorem C4_alloc_fail_growth (w : AllocReq → Option Nat) (r : AllocReq) :
    alloc_fail w r = if isGrowth r then none else w r := by
  rcases r with ⟨p, o, n⟩
  cases p with
  | none => simp [alloc_fail, isGrowth]
  | some a =>
      simp [alloc_fail, isGrowth]
      split_ifs <;> first | rfl | omega

/-- C6 (counterexample): at call-frame target 1 and slot target 5 the
driver performs no stack reservation in the base frame (the frame whose
count argument is 0); the single reservation happens in the initial
frame, whose count argument is 1. -/
theorem C6_counterexample :
    reservesAtCount 0 (preallocPhase1 1 5) = false ∧
    reservesAtCount 1 (preallocPhase1 1 5) = true ∧
    checkstackEvents (preallocPhase1 1 5) = [(1, 5)] := by
  have h : preallocPhase1 1 5 =
      [Ev.checkstack 1 5, Ev.driverCall 0, Ev.driverYield] := by
    rw [preallocPhase1_top 1 5 (by norm_num) (by norm_num)]
    rfl
  rw [h]
  decide

/-- C6 (amended): for every call-frame target `C > 0` and slot target
`S > 0`, the driver recursively invokes itself `C` times with counts
`C-1, C-2, …, 0`, reserves the `S` local-variable slots exactly once —
in the initial frame (count `C`), before any recursion, not in the base
frame — and then suspends the isolated context exactly once. -/
theorem C6_amended_driver_shape (C S : Int) (hC : 0 < C) (hS : 0 < S) :
    driverCallCounts (preallocPhase1 C S) = countdown C.toNat ∧
    checkstackEvents (preallocPhase1 C S) = [(C, S)] ∧
    yieldCount (preallocPhase1 C S) = 1 := by
  rw [preallocPhase1_top C S hC (by omega)]
  have hcast : (((C : Int) - 1).toNat : Int) = C - 1 :=
    Int.toNat_of_nonneg (by omega)
  have hsucc : C.toNat = (C - 1).toNat + 1 := by omega
  refine ⟨?_, by simp, by simp⟩
  have h1 : driverCallCounts (Ev.checkstack C S :: Ev.driverCall (C - 1) ::
      driverTail (C - 1).toNat) = (C - 1) :: countdown (C - 1).toNat := by simp
  rw [h1, hsucc, countdown, hcast]

/-- C6 amended, witness at `C = 2`, `S = 7`. -/
theorem C6_amended_driver_shape_witness :
    (0 : Int) < 2 ∧ (0 : Int) < 7 ∧
    driverCallCounts (preallocPhase1 2 7) = countdown (2 : Int).toNat ∧
    checkstackEvents (preallocPhase1 2 7) = [(2, 7)] ∧
    yieldCount (preallocPhase1 2 7) = 1 := by
  have h := C6_amended_driver_shape 2 7 (by norm_num) (by norm_num)
  exact ⟨by norm_num, by norm_num, h.1, h.2.1, h.2.2⟩

/-- C7: whenever the effective stack slot budget or the effective call
frame budget is non-positive, `lfinally` raises the corresponding
`invalidArgument` error and its trace is empty — the coroutine is never
driven and neither the main nor the cleanup function runs; moreover the
omitted arguments default to 100 stack slots, 10 call frames and
calibration off. -/
theorem C7_validation_and_defaults (ms0 mc0 : Option Int) (cal0 : Option Bool)
    (m : MainOutcome) (c : Option Value → CleanupOutcome)
    (h : ms0.getD 100 ≤ 0 ∨ mc0.getD 10 ≤ 0) :
    ((lfinally ms0 mc0 cal0 m c).outcome = .raise (.invalidArgument 3) ∨
     (lfinally ms0 mc0 cal0 m c).outcome = .raise (.invalidArgument 4)) ∧
    (lfinally ms0 mc0 cal0 m c).trace = [] ∧
    lfinally none none none m c = lfinally (some 100) (some 10) (some false) m c := by
  refine ⟨?_, ?_, rfl⟩
  · by_cases hms : ms0.getD 100 ≤ 0
    · exact Or.inl (by simp [lfinally, hms])
    · have hmc := h.resolve_left hms
      exact Or.inr (by simp [lfinally, hms, hmc])
  · by_cases hms : ms0.getD 100 ≤ 0
    · simp [lfinally, hms]
    · have hmc := h.resolve_left hms
      simp [lfinally, hms, hmc]

/-- C7, witness: a zero slot budget is rejected with an empty trace. -/
theorem C7_validation_and_defaults_witness :
    ((some (0 : Int)).getD 100 ≤ 0 ∨ (some (10 : Int)).getD 10 ≤ 0) ∧
    (lfinally (some 0) (some 10) none (.ok [1]) (fun _ => .ok)).trace = [] :=
  ⟨Or.inl (by decide),
    (C7_validation_and_defaults (some 0) (some 10) none (.ok [1]) (fun _ => .ok)
      (Or.inl (by decide))).2.1⟩

/-- C1: for every invocation of `lfinally` whose setup succeeds (both
effective budgets positive): if the cleanup function fails, the single
raised error is the cleanup function's error value, whatever the main
function's outcome was; if the cleanup function succeeds and the main
function failed, the main function's error value is raised; if both
succeed, exactly the main function's result sequence is returned. -/
theorem C1_outcome_merge (ms0 mc0 : Option Int) (cal0 : Option Bool)
    (m : MainOutcome) (c : Option Value → CleanupOutcome)
    (h1 : 0 < ms0.getD 100) (h2 : 0 < mc0.getD 10) :
    (∀ ce, c (mainFailure m) = .err ce →
      (lfinally ms0 mc0 cal0 m c).outcome = .raise (.raised ce)) ∧
    (∀ e, c (mainFailure m) = .ok → m = .err e →
      (lfinally ms0 mc0 cal0 m c).outcome = .raise (.raised e)) ∧
    (∀ rs, c (mainFailure m) = .ok → m = .ok rs →
      (lfinally ms0 mc0 cal0 m c).outcome = .ok rs) := by
  rw [lfinally_valid ms0 mc0 cal0 m c h1 h2]
  refine ⟨?_, ?_, ?_⟩
  · intro ce hce
    simp [runValidated, mergeOutcome, hce]
  · intro e hok hm
    subst hm
    simp [runValidated, mergeOutcome, hok]
  · intro rs hok hm
    subst hm
    simp [runValidated, mergeOutcome, hok]

/-- C1, witness: both actions succeed and the main results `[3, 7]` are
returned unchanged. -/
theorem C1_outcome_merge_witness :
    0 < (some (5 : Int)).getD 100 ∧ 0 < (some (2 : Int)).getD 10 ∧
    (lfinally (some 5) (some 2) (some false) (.ok [3, 7])
      (fun _ => .ok)).outcome = .ok [3, 7] :=
  ⟨by decide, by decide,
    (C1_outcome_merge (some 5) (some 2) (some false) (.ok [3, 7]) (fun _ => .ok)
      (by decide) (by decide)).2.2 [3, 7] rfl rfl⟩

/-- C2: for every invocation of `lfinally` with valid budgets, the
cleanup function is called exactly once — whatever the outcomes of the
main and the cleanup functions are. -/
theorem C2_cleanup_exactly_once (ms0 mc0 : Option Int) (cal0 : Option Bool)
    (m : MainOutcome) (c : Option Value → CleanupOutcome)
    (h1 : 0 < ms0.getD 100) (h2 : 0 < mc0.getD 10) :
    (cleanupArgs (lfinally ms0 mc0 cal0 m c).trace).length = 1 := by
  rw [lfinally_valid ms0 mc0 cal0 m c h1 h2]
  have htop := preallocPhase1_top (mc0.getD 10 + 1) (ms0.getD 100)
    (by omega) (by omega)
  cases hdebug : cal0.getD false <;>
    simp [runValidated, preallocResume, hdebug, htop]

/-- C2, witness at a failing main function. -/
theorem C2_cleanup_exactly_once_witness :
    0 < (some (3 : Int)).getD 100 ∧ 0 < (some (1 : Int)).getD 10 ∧
    (cleanupArgs (lfinally (some 3) (some 1) (some true) (.err 4)
      (fun _ => .err 5)).trace).length = 1 :=
  ⟨by decide, by decide,
    C2_cleanup_exactly_once (some 3) (some 1) (some true) (.err 4)
      (fun _ => .err 5) (by decide) (by decide)⟩

/-- C3: for every invocation of `lfinally` with valid budgets, the
single cleanup call receives exactly the main function's error value as
its one argument when the main function failed, and no argument when
the main function succeeded — never the main function's results. -/
theorem C3_cleanup_argument (ms0 mc0 : Option Int) (cal0 : Option Bool)
    (m : MainOutcome) (c : Option Value → CleanupOutcome)
    (h1 : 0 < ms0.getD 100) (h2 : 0 < mc0.getD 10) :
    cleanupArgs (lfinally ms0 mc0 cal0 m c).trace = [mainFailure m] ∧
    (∀ e, m = .err e → mainFailure m = some e) ∧
    (∀ rs, m = .ok rs → mainFailure m = none) := by
  refine ⟨?_, ?_, ?_⟩
  · rw [lfinally_valid ms0 mc0 cal0 m c h1 h2]
    have htop := preallocPhase1_top (mc0.getD 10 + 1) (ms0.getD 100)
      (by omega) (by omega)
    cases hdebug : cal0.getD false <;>
      simp [runValidated, preallocResume, hdebug, htop]
  · intro e hm
    subst hm
    rfl
  · intro rs hm
    subst hm
    rfl

/-- C3, witness: the main error value 9 is passed to cleanup. -/
theorem C3_cleanup_argument_witness :
    0 < (some (2 : Int)).getD 100 ∧ 0 < (some (1 : Int)).getD 10 ∧
    cleanupArgs (lfinally (some 2) (some 1) none (.err 9)
      (fun _ => .ok)).trace = [mainFailure (.err 9)] :=
  ⟨by decide, by decide,
    (C3_cleanup_argument (some 2) (some 1) none (.err 9) (fun _ => .ok)
      (by decide) (by decide)).1⟩

/-- C5: for every invocation with valid budgets and calibration on, the
failing allocator override is installed (exactly once) and the original
allocator is installed again when the invocation finishes — on every
completion path, i.e. for every main outcome and every cleanup
behaviour, including failure and attempted suspension. -/
theorem C5_allocator_restored (ms0 mc0 : Option Int) (cal0 : Option Bool)
    (m : MainOutcome) (c : Option Value → CleanupOutcome)
    (h1 : 0 < ms0.getD 100) (h2 : 0 < mc0.getD 10)
    (hc : cal0.getD false = true) :
    installCount (lfinally ms0 mc0 cal0 m c).trace = 1 ∧
    (lfinally ms0 mc0 cal0 m c).finalAlloc = AllocKind.original := by
  rw [lfinally_valid ms0 mc0 cal0 m c h1 h2]
  have htop := preallocPhase1_top (mc0.getD 10 + 1) (ms0.getD 100)
    (by omega) (by omega)
  constructor
  · simp [runValidated, preallocResume, hc, htop]
  · simp [runValidated, preallocResume, hc]

/-- C5, witness: cleanup attempts to suspend, allocator still restored. -/
theorem C5_allocator_restored_witness :
    0 < (some (3 : Int)).getD 100 ∧ 0 < (some (1 : Int)).getD 10 ∧
    (some true).getD false = true ∧
    (lfinally (some 3) (some 1) (some true) (.err 4)
      (fun _ => .suspended)).finalAlloc = AllocKind.original :=
  ⟨by decide, by decide, by decide,
    (C5_allocator_restored (some 3) (some 1) (some true) (.err 4)
      (fun _ => .suspended) (by decide) (by decide) (by decide)).2⟩

/-- C8: for every invocation with valid budgets in which the cleanup
function attempts to suspend instead of running to completion,
`lfinally` raises the distinguished `cleanupSuspended` error — it never
returns successfully and never surfaces the main function's outcome. -/
theorem C8_cleanup_suspend (ms0 mc0 : Option Int) (cal0 : Option Bool)
    (m : MainOutcome) (c : Option Value → CleanupOutcome)
    (h1 : 0 < ms0.getD 100) (h2 : 0 < mc0.getD 10)
    (hy : c (mainFailure m) = .suspended) :
    (lfinally ms0 mc0 cal0 m c).outcome = .raise Err.cleanupSuspended ∧
    ∀ rs, (lfinally ms0 mc0 cal0 m c).outcome ≠ .ok rs := by
  rw [lfinally_valid ms0 mc0 cal0 m c h1 h2]
  constructor
  · simp [runValidated, mergeOutcome, hy]
  · intro rs
    simp [runValidated, mergeOutcome, hy]

/-- C8, witness: a suspending cleanup after a successful main. -/
theorem C8_cleanup_suspend_witness :
    0 < (some (3 : Int)).getD 100 ∧ 0 < (some (1 : Int)).getD 10 ∧
    (lfinally (some 3) (some 1) none (.ok [8])
      (fun _ => .suspended)).outcome = .raise Err.cleanupSuspended :=
  ⟨by decide, by decide,
    (C8_cleanup_suspend (some 3) (some 1) none (.ok [8])
      (fun _ => .suspended) (by decide) (by decide) rfl).1⟩

/-- C9: for every invocation with valid budgets, the driver's
call-frame target is the caller-supplied `minCallFrames` plus one: the
recursive driver invocations recorded in the trace have counts
`minCallFrames, minCallFrames - 1, …, 0`, i.e. there are exactly
`minCallFrames + 1` of them. -/
theorem C9_frames_plus_one (ms0 mc0 : Option Int) (cal0 : Option Bool)
    (m : MainOutcome) (c : Option Value → CleanupOutcome)
    (h1 : 0 < ms0.getD 100) (h2 : 0 < mc0.getD 10) :
    driverCallCounts (lfinally ms0 mc0 cal0 m c).trace =
      countdown ((mc0.getD 10).toNat + 1) ∧
    (driverCallCounts (lfinally ms0 mc0 cal0 m c).trace).length =
      (mc0.getD 10).toNat + 1 := by
  have hmain : driverCallCounts (lfinally ms0 mc0 cal0 m c).trace =
      countdown ((mc0.getD 10).toNat + 1) := by
    rw [lfinally_valid ms0 mc0 cal0 m c h1 h2]
    have htop := preallocPhase1_top (mc0.getD 10 + 1) (ms0.getD 100)
      (by omega) (by omega)
    have hcast : (((mc0.getD 10 : Int)).toNat : Int) = mc0.getD 10 :=
      Int.toNat_of_nonneg (by omega)
    have h1' : driverCallCounts (runValidated (ms0.getD 100) (mc0.getD 10)
        (cal0.getD false) m c).trace =
        (mc0.getD 10 + 1 - 1) :: countdown (mc0.getD 10 + 1 - 1).toNat := by
      cases hdebug : cal0.getD false <;>
        simp [runValidated, preallocResume, hdebug, htop]
    rw [h1', countdown]
    have he : mc0.getD 10 + 1 - 1 = mc0.getD 10 := by omega
    rw [he, hcast]
  exact ⟨hmain, by rw [hmain, countdown_length]⟩

/-- C9, witness at `minCallFrames = 2`: counts `[2, 1, 0]`. -/
theorem C9_frames_plus_one_witness :
    0 < (some (4 : Int)).getD 100 ∧ 0 < (some (2 : Int)).getD 10 ∧
    driverCallCounts (lfinally (some 4) (some 2) none (.ok [])
      (fun _ => .ok)).trace = countdown (((some (2 : Int)).getD 10).toNat + 1) :=
  ⟨by decide, by decide,
    (C9_frames_plus_one (some 4) (some 2) none (.ok []) (fun _ => .ok)
      (by decide) (by decide)).1⟩

/-- C10: for every invocation with valid budgets and calibration on,
the whole trace is the driver descent followed by the main run under
the original allocator, then the installation of `alloc_fail`,
immediately followed by the cleanup call and the restoring of the
original allocator; the driver descent — everything that happens before
the main function runs — contains no allocator installation, so the
failing allocator is never active while the main function executes. -/
theorem C10_install_after_main (ms0 mc0 : Option Int) (cal0 : Option Bool)
    (m : MainOutcome) (c : Option Value → CleanupOutcome)
    (h1 : 0 < ms0.getD 100) (h2 : 0 < mc0.getD 10)
    (hc : cal0.getD false = true) :
    (lfinally ms0 mc0 cal0 m c).trace =
      preallocPhase1 (mc0.getD 10 + 1) (ms0.getD 100) ++
        [Ev.mainRun AllocKind.original, Ev.installFailAlloc,
         Ev.callCleanup (mainFailure m), Ev.restoreAlloc] ∧
    installCount (preallocPhase1 (mc0.getD 10 + 1) (ms0.getD 100)) = 0 := by
  constructor
  · rw [lfinally_valid ms0 mc0 cal0 m c h1 h2]
    simp [runValidated, preallocResume, hc]
  · rw [preallocPhase1_top (mc0.getD 10 + 1) (ms0.getD 100) (by omega) (by omega)]
    simp

/-- C10, witness: calibrated run with a failing main function. -/
theorem C10_install_after_main_witness :
    0 < (some (2 : Int)).getD 100 ∧ 0 < (some (1 : Int)).getD 10 ∧
    (some true).getD false = true ∧
    (lfinally (some 2) (some 1) (some true) (.err 6) (fun _ => .ok)).trace =
      preallocPhase1 ((some (1 : Int)).getD 10 + 1) ((some (2 : Int)).getD 100) ++
        [Ev.mainRun AllocKind.original, Ev.installFailAlloc,
         Ev.callCleanup (mainFailure (.err 6)), Ev.restoreAlloc] :=
  ⟨by decide, by decide, by decide,
    (C10_install_after_main (some 2) (some 1) (some true) (.err 6) (fun _ => .ok)
      (by decide) (by decide) (by decide)).1⟩

end LuaFinally
